import Mathlib

/-
Verification development for the wusa-reports schedule dashboard (src/app.py).

The development shallowly embeds the pieces of app.py that the audit-trail /
derived-field claims are about:

* `calculate_week_and_daycode` (app.py lines 339-358): the date string is
  parsed by the pandas library (`pd.to_datetime`); parsing is modelled as an
  abstract `parse : String -> Option Date` parameter, where `none` is the
  exception path of the `try/except`.  The `isocalendar()` call on the parsed
  timestamp is embedded faithfully from the reference implementation used by
  CPython/pandas (proleptic Gregorian ordinals, `_isoweek1monday`, and the
  week/day branch structure).
* `add_audit_entry` (lines 309-326): serializes one field change as a JSON
  object string; `datetime.now()` is read inside the helper, once per produced
  entry, so the clock is modelled as a sequence of reads `clock : Nat -> String`.
* the "Edit Game" form submit handler (lines 1508-1671): field-by-field diff in
  a fixed order, Week/Daycode recomputation, audit-trail append, and the
  unconditional single-row UPDATE that also stamps `last_updated`.
* the single-row SQL UPDATE statements, modelled over an association list of
  (game number, record) rows: the edit-form UPDATE (lines 1637-1668) and the
  Full Schedule inline comment UPDATE (lines 616-619).
* the change-history reader (lines 1726-1756): split the stored trail on
  newlines, `json.loads` each non-blank line inside `try/except` (decoding is
  modelled as an abstract `decode : String -> Option AuditEntry` parameter),
  and display in reverse order.
-/

namespace WusaReports

/-! ### Proleptic Gregorian calendar (CPython `datetime` helpers) -/

/-- A parsed calendar date, as produced by `pd.to_datetime`. -/
structure Date where
  year : Nat
  month : Nat
  day : Nat
deriving DecidableEq, Repr

/-- CPython `_is_leap`: `year % 4 == 0 and (year % 100 != 0 or year % 400 == 0)`. -/
def isLeapYear (y : Nat) : Bool :=
  y % 4 == 0 && (y % 100 != 0 || y % 400 == 0)

/-- Number of days in a calendar year. -/
def daysInYear (y : Nat) : Nat :=
  if isLeapYear y then 366 else 365

/-- CPython `_days_before_year`: days before January 1st of `year`. -/
def daysBeforeYear (y : Nat) : Nat :=
  (y - 1) * 365 + (y - 1) / 4 - (y - 1) / 100 + (y - 1) / 400

/-- CPython `_days_in_month` (via the `_DAYS_IN_MONTH` table). -/
def daysInMonth (y m : Nat) : Nat :=
  match m with
  | 1 => 31
  | 2 => if isLeapYear y then 29 else 28
  | 3 => 31
  | 4 => 30
  | 5 => 31
  | 6 => 30
  | 7 => 31
  | 8 => 31
  | 9 => 30
  | 10 => 31
  | 11 => 30
  | 12 => 31
  | _ => 0

/-- CPython `_days_before_month` (via the `_DAYS_BEFORE_MONTH` table). -/
def daysBeforeMonth (y m : Nat) : Nat :=
  (match m with
   | 1 => 0
   | 2 => 31
   | 3 => 59
   | 4 => 90
   | 5 => 120
   | 6 => 151
   | 7 => 181
   | 8 => 212
   | 9 => 243
   | 10 => 273
   | 11 => 304
   | 12 => 334
   | _ => 0) + (if 2 < m ∧ isLeapYear y then 1 else 0)

/-- CPython `_ymd2ord`: proleptic Gregorian ordinal; January 1 of year 1 is day 1. -/
def ymd2ord (dt : Date) : Nat :=
  daysBeforeYear dt.year + daysBeforeMonth dt.year dt.month + dt.day

/-- The dates `pd.to_datetime` can actually produce. -/
def ValidDate (dt : Date) : Prop :=
  1 ≤ dt.year ∧ 1 ≤ dt.month ∧ dt.month ≤ 12 ∧ 1 ≤ dt.day ∧
    dt.day ≤ daysInMonth dt.year dt.month

instance (dt : Date) : Decidable (ValidDate dt) := by
  unfold ValidDate; infer_instance

/-- CPython `_isoweek1monday year`: ordinal of the Monday starting ISO week 1
of `year` (the week containing the first Thursday of the year). -/
def isoweek1monday (y : Nat) : Int :=
  let firstday : Int := (ymd2ord ⟨y, 1, 1⟩ : Nat)
  let firstweekday : Int := (firstday + 6) % 7
  let week1monday := firstday - firstweekday
  if 3 < firstweekday then week1monday + 7 else week1monday

/-- CPython `date.isocalendar` (the semantics of `Timestamp.isocalendar()`):
returns (ISO year, ISO week, ISO weekday). -/
def isocalendar (dt : Date) : Int × Int × Int :=
  let today : Int := (ymd2ord dt : Nat)
  let week1monday := isoweek1monday dt.year
  let week := (today - week1monday) / 7
  let day := (today - week1monday) % 7
  if week < 0 then
    let w0 := isoweek1monday (dt.year - 1)
    (((dt.year : Int) - 1), (today - w0) / 7 + 1, (today - w0) % 7 + 1)
  else if 52 ≤ week ∧ isoweek1monday (dt.year + 1) ≤ today then
    ((dt.year : Int) + 1, 1, day + 1)
  else
    ((dt.year : Int), week + 1, day + 1)

/-- app.py lines 339-358, `calculate_week_and_daycode`: on a successfully
parsed date it returns `(isocalendar()[1], isocalendar()[2])`; the bare
`except` branch degrades to the `(0, 0)` sentinel.  The pandas parse is the
`Option Date` argument (`none` = parse failure). -/
def calculate_week_and_daycode (parsed : Option Date) : Int × Int :=
  match parsed with
  | some dt => ((isocalendar dt).2.1, (isocalendar dt).2.2)
  | none => (0, 0)

/-! ### Spec-side ISO-8601 definitions (for the refinement claim C2)

These two definitions follow the words of the spec ("`week_number` = ISO-8601
week-of-year for that date (1-53)", "`day_code` = ISO weekday number,
Monday = 1 … Sunday = 7"), independently of the code's algorithm.  The
anchoring calendar fact is that proleptic Gregorian ordinal 1 (0001-01-01)
is a Monday, so Mondays are exactly the ordinals congruent to 1 mod 7. -/

/-- ISO weekday of a date, straight from the ISO-8601 definition: day 1 of the
proleptic Gregorian calendar is a Monday and weekdays cycle with period 7,
numbered Monday = 1 … Sunday = 7. -/
def isoWeekdayOfDate (dt : Date) : Int :=
  ((ymd2ord dt : Int) - 1) % 7 + 1

/-- Ordinal of the Monday on or before the given date (the start of its
Monday-based ISO week). -/
def mondayOnOrBefore (dt : Date) : Int :=
  (ymd2ord dt : Int) - ((ymd2ord dt : Int) - 1) % 7

/-- The ISO year a date belongs to: the calendar year containing the Thursday
of the date's Monday-based week (ISO-8601: week 01 of a year is the week
containing the year's first Thursday).  The Thursday is within three days of
the date, so it lies in the previous, same, or next calendar year. -/
def isoYearOfDate (dt : Date) : Nat :=
  let t := mondayOnOrBefore dt + 3
  if t < (ymd2ord ⟨dt.year, 1, 1⟩ : Nat) then dt.year - 1
  else if ((ymd2ord ⟨dt.year + 1, 1, 1⟩ : Nat) : Int) ≤ t then dt.year + 1
  else dt.year

/-- ISO-8601 week-of-year of a date: the index (counting from 1) of its week's
Thursday among the days of the ISO year, grouped in blocks of seven; that is,
the ceiling of (day-of-year of the Thursday) / 7. -/
def isoWeekOfDate (dt : Date) : Int :=
  let t := mondayOnOrBefore dt + 3
  (t - (ymd2ord ⟨isoYearOfDate dt, 1, 1⟩ : Nat) + 7) / 7

/-! ### Audit entry codec (app.py lines 309-326) -/

/-- One decoded audit-trail fact, exactly the four keys of the JSON object
built by `add_audit_entry`. -/
structure AuditEntry where
  timestamp : String
  field : String
  old_value : String
  new_value : String
deriving DecidableEq, Repr

/-- Lower-case hexadecimal digit, used by the `\u00XX` escapes of
`json.dumps`. -/
def hexDigit (n : Nat) : Char :=
  if n < 10 then Char.ofNat (48 + n) else Char.ofNat (87 + n)

/-- Escaping of one character inside a `json.dumps` string literal (backslash,
quote, the named control escapes, and `\u00XX` for the other control
characters; other characters pass through). -/
def jsonEscapeChar (c : Char) : String :=
  if c = '\\' then "\\\\"
  else if c = '"' then "\\\""
  else if c = '\n' then "\\n"
  else if c = '\t' then "\\t"
  else if c = '\r' then "\\r"
  else if c = '\x08' then "\\b"
  else if c = '\x0c' then "\\f"
  else if c.toNat < 32 then
    "\\u00" ++ String.mk [hexDigit (c.toNat / 16), hexDigit (c.toNat % 16)]
  else String.mk [c]

/-- A `json.dumps` string literal. -/
def jsonString (s : String) : String :=
  "\"" ++ String.join (s.toList.map jsonEscapeChar) ++ "\""

/-- app.py lines 309-326, `add_audit_entry`: serialize one field change as a
single-line JSON object with keys timestamp, field, old_value, new_value (the
`game_number` argument of the Python helper is unused and dropped here; the
`datetime.now()` read inside the helper is the explicit `timestamp`
argument). -/
def add_audit_entry (timestamp fieldName oldValue newValue : String) : String :=
  "\x7b\"timestamp\": " ++ jsonString timestamp ++
    ", \"field\": " ++ jsonString fieldName ++
    ", \"old_value\": " ++ jsonString oldValue ++
    ", \"new_value\": " ++ jsonString newValue ++ "\x7d"

/-- Serialization of a decoded entry. -/
def encodeEntry (e : AuditEntry) : String :=
  add_audit_entry e.timestamp e.field e.old_value e.new_value

/-! ### Game records and the edit-form update (app.py lines 1508-1671) -/

/-- One row of the `games` table, restricted to the columns the edit flow
touches.  `Week`/`Daycode` are numeric columns; the rest are strings.
`game_audit_trail` is the opaque newline-separated text blob; `last_updated`
is the epoch-seconds integer column. -/
structure GameRecord where
  gameDate : String
  field : String
  time : String
  home : String
  away : String
  status : String
  comment : String
  originalDate : String
  week : Int
  daycode : Int
  auditTrail : String
  lastUpdated : Int
deriving DecidableEq, Repr

/-- The full proposed replacement values collected by the edit form
(`new_game_date` … `new_original_date`). -/
structure ProposedFields where
  gameDate : String
  field : String
  time : String
  home : String
  away : String
  status : String
  comment : String
  originalDate : String
deriving DecidableEq, Repr

/-- app.py lines 1516-1587: the eight user-field comparisons, in source order,
each yielding one (label, old, new) change triple when proposed differs from
current. -/
def userChanges (g : GameRecord) (p : ProposedFields) :
    List (String × String × String) :=
  (if p.gameDate ≠ g.gameDate then [("Game Date", g.gameDate, p.gameDate)] else []) ++
  (if p.field ≠ g.field then [("Field", g.field, p.field)] else []) ++
  (if p.time ≠ g.time then [("Time", g.time, p.time)] else []) ++
  (if p.home ≠ g.home then [("Home Team", g.home, p.home)] else []) ++
  (if p.away ≠ g.away then [("Away Team", g.away, p.away)] else []) ++
  (if p.status ≠ g.status then [("Status", g.status, p.status)] else []) ++
  (if p.comment ≠ g.comment then [("Comment", g.comment, p.comment)] else []) ++
  (if p.originalDate ≠ g.originalDate then
    [("Original Date", g.originalDate, p.originalDate)] else [])

/-- app.py lines 1592-1609: the two derived-field comparisons against the
recomputed `(new_week, new_daycode)` pair, with the distinguishing
"(auto-calculated)" labels; numeric values go through `str()`. -/
def derivedChanges (g : GameRecord) (wd : Int × Int) :
    List (String × String × String) :=
  (if wd.1 ≠ g.week then
    [("Week (auto-calculated)", toString g.week, toString wd.1)] else []) ++
  (if wd.2 ≠ g.daycode then
    [("Daycode (auto-calculated)", toString g.daycode, toString wd.2)] else [])

/-- Builds the `audit_entries` list from the change triples: the k-th produced
entry gets the k-th `datetime.now()` read (`add_audit_entry` reads the clock
once per entry, in production order). -/
def auditEntriesFrom (clock : Nat → String) (i : Nat) :
    List (String × String × String) → List AuditEntry
  | [] => []
  | c :: cs => ⟨clock i, c.1, c.2.1, c.2.2⟩ :: auditEntriesFrom clock (i + 1) cs

/-- app.py lines 1619-1626: append the new entries to the existing trail,
newline separated; an empty entry list leaves the trail untouched, and no
separator is added in front of an empty existing trail. -/
def appendAuditTrail (existing : String) (entries : List String) : String :=
  if entries = [] then existing
  else if existing = "" then String.intercalate "\n" entries
  else existing ++ "\n" ++ String.intercalate "\n" entries

/-- Result of one edit-form submission: the row written by the UPDATE, the
`changes_for_email` triples, and the decoded form of the appended
`audit_entries`. -/
structure UpdateResult where
  record : GameRecord
  changes : List (String × String × String)
  entries : List AuditEntry
deriving Repr

/-- app.py lines 1508-1671: the edit-form submit handler for one game row.
`parse` stands for `pd.to_datetime` inside `calculate_week_and_daycode`,
`clock` for the successive `datetime.now()` reads inside `add_audit_entry`,
and `now` for the `int(time.time())` used for `last_updated`.  The UPDATE
statement (lines 1637-1668) writes all proposed values, the recomputed
`Week`/`Daycode`, the appended trail, and `last_updated = now`
whether or not any change triple was produced. -/
def update_game (parse : String → Option Date) (clock : Nat → String)
    (now : Int) (g : GameRecord) (p : ProposedFields) : UpdateResult :=
  let wd := calculate_week_and_daycode (parse p.gameDate)
  let cs := userChanges g p ++ derivedChanges g wd
  let entries := auditEntriesFrom clock 0 cs
  let newTrail := appendAuditTrail g.auditTrail (entries.map encodeEntry)
  { record :=
      { gameDate := p.gameDate
        field := p.field
        time := p.time
        home := p.home
        away := p.away
        status := p.status
        comment := p.comment
        originalDate := p.originalDate
        week := wd.1
        daycode := wd.2
        auditTrail := newTrail
        lastUpdated := now }
    changes := cs
    entries := entries }

/-! ### The single-row SQL UPDATE statements over the `games` table -/

/-- The edit-form UPDATE (app.py lines 1637-1668):
`UPDATE games SET ... WHERE "Game #" = ?` replaces every row whose key
matches with the new row and leaves every other row untouched; SQLite raises
no error when no row matches. -/
def sqlUpdateGame (table : List (Nat × GameRecord)) (gameNum : Nat)
    (r : GameRecord) : List (Nat × GameRecord) :=
  table.map fun kv => if kv.1 = gameNum then (kv.1, r) else kv

/-- app.py lines 1508-1711 at table level: run the submit handler against the
record `g` the form displayed (the row reloaded from the database, or the
stale cached row when the reload returns nothing), execute the UPDATE, and
report the outcome shown to the user.  The success branch runs whenever the
UPDATE statement itself does not raise, so the reported flag is `true` even
when the WHERE clause matched no row. -/
def edit_game_submit (parse : String → Option Date) (clock : Nat → String)
    (now : Int) (table : List (Nat × GameRecord)) (gameNum : Nat)
    (g : GameRecord) (p : ProposedFields) : List (Nat × GameRecord) × Bool :=
  let res := update_game parse clock now g p
  (sqlUpdateGame table gameNum res.record, true)

/-- The Full Schedule inline comment editor's UPDATE (app.py lines 616-619):
`UPDATE games SET "Comment" = ? WHERE "Game #" = ?`. -/
def sqlUpdateComment (table : List (Nat × GameRecord)) (gameNum : Nat)
    (c : String) : List (Nat × GameRecord) :=
  table.map fun kv =>
    if kv.1 = gameNum then (kv.1, { kv.2 with comment := c }) else kv

/-! ### Change-history reader (app.py lines 1726-1756) -/

/-- Python `str.strip()` whitespace set. -/
def isPyWhitespace (c : Char) : Bool :=
  c = ' ' || c = '\t' || c = '\n' || c = '\r' || c = '\x0b' || c = '\x0c'

/-- Python `str.strip()`. -/
def pythonStrip (s : String) : String :=
  String.mk (((s.toList.dropWhile isPyWhitespace).reverse.dropWhile
    isPyWhitespace).reverse)

/-- Python `str.split` with an explicit one-character separator: splits at
every newline and keeps empty pieces. -/
def splitNewlines (l : List Char) : List (List Char) :=
  match l with
  | [] => [[]]
  | c :: cs =>
    if c = '\n' then [] :: splitNewlines cs
    else
      match splitNewlines cs with
      | [] => [[c]]
      | p :: ps => (c :: p) :: ps

/-- app.py line 1741: `str(audit_trail).strip().split('\n')`. -/
def auditLines (trail : String) : List String :=
  (splitNewlines (pythonStrip trail).toList).map String.mk

/-- app.py lines 1744-1750: the per-line loop; blank lines are skipped, each
other line goes through `json.loads` inside `try/except` (modelled by the
abstract `decode`), and a failing line is skipped without affecting the
rest. -/
def readAuditLines (decode : String → Option AuditEntry)
    (ls : List String) : List AuditEntry :=
  ls.filterMap fun line => if pythonStrip line ≠ "" then decode line else none

/-- app.py lines 1726-1756: the Selected Game's Change History display, as the
list of decoded entries in display order (line 1756 reverses, most recent
first). -/
def history_for (decode : String → Option AuditEntry) (trail : String) :
    List AuditEntry :=
  (readAuditLines decode (auditLines trail)).reverse

/-- Iterated edit-form submissions against the same row: the inputs of one
submission (its proposed fields, its `datetime.now()` reads, its
`int(time.time())` stamp). -/
structure UpdateInput where
  p : ProposedFields
  clock : Nat → String
  now : Int

/-- Folding a sequence of edit-form submissions over one game record (each
submission re-reads the freshly persisted row, as the handler's reload
does). -/
def runUpdates (parse : String → Option Date) (g : GameRecord) :
    List UpdateInput → GameRecord
  | [] => g
  | u :: us => runUpdates parse (update_game parse u.clock u.now g u.p).record us

/-! ### Sample data for concrete evaluations -/

/-- A concrete game row (2025-10-06 is a Monday of ISO week 41, so the stored
Week/Daycode pair is consistent with the stored date). -/
def sampleGame : GameRecord :=
  { gameDate := "10/6/25"
    field := "Field 1"
    time := "9:00 AM"
    home := "Hawks"
    away := "Owls"
    status := "Scheduled"
    comment := ""
    originalDate := ""
    week := 41
    daycode := 1
    auditTrail := ""
    lastUpdated := 0 }

/-- A proposed-field set equal to `sampleGame`'s current values. -/
def sampleProposed : ProposedFields :=
  { gameDate := "10/6/25"
    field := "Field 1"
    time := "9:00 AM"
    home := "Hawks"
    away := "Owls"
    status := "Scheduled"
    comment := ""
    originalDate := "" }

/-- A concrete stand-in for `pd.to_datetime`, resolving the one date string
the samples use. -/
def sampleParse : String → Option Date :=
  fun s => if s = "10/6/25" then some ⟨2025, 10, 6⟩ else none

/-- A clock whose reads all fall in the same second. -/
def sampleClock : Nat → String :=
  fun _ => "2025-10-07 12:00:00"

/-- A clock that ticks between successive reads (an update straddling a
second boundary). -/
def tickingClock : Nat → String :=
  fun i => toString i

/-- A concrete stand-in for `json.loads` on audit lines: decodes the two
well-formed lines "A" and "C" and fails on everything else. -/
def sampleDecode : String → Option AuditEntry :=
  fun s =>
    if s = "A" then some ⟨"t1", "Comment", "", "x"⟩
    else if s = "C" then some ⟨"t2", "Time", "9:00 AM", "1:00 PM"⟩
    else none

/-! ### Helper lemmas -/

theorem appendAuditTrail_extends (e : String) (es : List String) :
    ∃ t, appendAuditTrail e es = e ++ t := by
  unfold appendAuditTrail
  split
  · exact ⟨"", by simp⟩
  · split
    · next he _ => exact ⟨String.intercalate "\n" es, by simp_all⟩
    · exact ⟨"\n" ++ String.intercalate "\n" es, by rw [String.append_assoc]⟩

theorem auditEntriesFrom_map_field (clock : Nat → String) (i : Nat)
    (cs : List (String × String × String)) :
    (auditEntriesFrom clock i cs).map (·.field) = cs.map (·.1) := by
  induction cs generalizing i with
  | nil => rfl
  | cons c cs ih => simp [auditEntriesFrom, ih]

theorem auditEntriesFrom_append (clock : Nat → String) (i : Nat)
    (a b : List (String × String × String)) :
    auditEntriesFrom clock i (a ++ b) =
      auditEntriesFrom clock i a ++ auditEntriesFrom clock (i + a.length) b := by
  induction a generalizing i with
  | nil => simp [auditEntriesFrom]
  | cons c cs ih =>
    simp [auditEntriesFrom, ih (i + 1), Nat.add_assoc, Nat.add_comm 1 cs.length]

theorem auditEntriesFrom_timestamp (clock : Nat → String) (ts : String)
    (hclock : ∀ j, clock j = ts) (i : Nat)
    (cs : List (String × String × String)) :
    ∀ e ∈ auditEntriesFrom clock i cs, e.timestamp = ts := by
  induction cs generalizing i with
  | nil => intro e he; cases he
  | cons c cs ih =>
    intro e he
    rcases List.mem_cons.mp he with he | he
    · rw [he]; exact hclock i
    · exact ih (i + 1) e he

theorem runUpdates_append (parse : String → Option Date) (g : GameRecord)
    (a b : List UpdateInput) :
    runUpdates parse g (a ++ b) = runUpdates parse (runUpdates parse g a) b := by
  induction a generalizing g with
  | nil => rfl
  | cons u us ih => simp [runUpdates, ih]

theorem update_game_trail (parse : String → Option Date) (clock : Nat → String)
    (now : Int) (g : GameRecord) (p : ProposedFields) :
    (update_game parse clock now g p).record.auditTrail =
      appendAuditTrail g.auditTrail
        ((update_game parse clock now g p).entries.map encodeEntry) := by
  simp only [update_game]

theorem runUpdates_trail_extends (parse : String → Option Date)
    (us : List UpdateInput) (g : GameRecord) :
    ∃ t, (runUpdates parse g us).auditTrail = g.auditTrail ++ t := by
  induction us generalizing g with
  | nil => exact ⟨"", by simp [runUpdates]⟩
  | cons u us ih =>
    obtain ⟨t1, ht1⟩ := ih (update_game parse u.clock u.now g u.p).record
    obtain ⟨t0, ht0⟩ :=
      appendAuditTrail_extends g.auditTrail
        ((update_game parse u.clock u.now g u.p).entries.map encodeEntry)
    refine ⟨t0 ++ t1, ?_⟩
    have hstep : runUpdates parse g (u :: us) =
        runUpdates parse (update_game parse u.clock u.now g u.p).record us := rfl
    rw [hstep, ht1, update_game_trail, ht0, String.append_assoc]

theorem daysBeforeMonth_one (y : Nat) : daysBeforeMonth y 1 = 0 := by
  simp [daysBeforeMonth]

theorem daysInYear_eq (y : Nat) : daysInYear y = 365 ∨ daysInYear y = 366 := by
  unfold daysInYear
  split <;> simp

set_option maxHeartbeats 2000000 in
theorem ymd2ord_jan1_succ (y : Nat) (hy : 1 ≤ y) :
    ymd2ord ⟨y + 1, 1, 1⟩ = ymd2ord ⟨y, 1, 1⟩ + daysInYear y := by
  simp only [ymd2ord]
  rw [daysBeforeMonth_one, daysBeforeMonth_one]
  simp only [daysInYear]
  cases hL : isLeapYear y with
  | false =>
    simp only [isLeapYear, Bool.and_eq_false_iff, beq_eq_false_iff_ne, ne_eq,
      Bool.or_eq_false_iff, bne_eq_false_iff_eq] at hL
    simp only [Bool.false_eq_true, if_false, daysBeforeYear]
    omega
  | true =>
    simp only [isLeapYear, Bool.and_eq_true, beq_iff_eq, Bool.or_eq_true,
      bne_iff_ne, ne_eq] at hL
    simp only [if_true, daysBeforeYear]
    omega

theorem ymd2ord_bounds (dt : Date) (h : ValidDate dt) :
    ymd2ord ⟨dt.year, 1, 1⟩ ≤ ymd2ord dt ∧
    ymd2ord dt + 1 ≤ ymd2ord ⟨dt.year, 1, 1⟩ + daysInYear dt.year := by
  obtain ⟨y, m, d⟩ := dt
  obtain ⟨hy, hm1, hm2, hd1, hd2⟩ := h
  simp only at hy hm1 hm2 hd1 hd2 ⊢
  simp only [ymd2ord]
  rw [daysBeforeMonth_one]
  have hgoal : 1 ≤ daysBeforeMonth y m + d ∧
      daysBeforeMonth y m + d ≤ daysInYear y := by
    cases hL : isLeapYear y <;>
      interval_cases m <;>
        simp [daysBeforeMonth, daysInMonth, daysInYear, hL] at hd2 ⊢ <;> omega
  omega

theorem isoweek1monday_facts (y : Nat) :
    isoweek1monday y % 7 = 1 ∧
    (ymd2ord ⟨y, 1, 1⟩ : Int) - 3 ≤ isoweek1monday y ∧
    isoweek1monday y ≤ (ymd2ord ⟨y, 1, 1⟩ : Int) + 3 := by
  simp only [isoweek1monday]
  split_ifs <;> omega

set_option maxHeartbeats 2000000 in
theorem isocalendar_iso (dt : Date) (h : ValidDate dt) :
    (isocalendar dt).2.1 = isoWeekOfDate dt ∧
    (isocalendar dt).2.2 = isoWeekdayOfDate dt ∧
    1 ≤ isoWeekOfDate dt ∧ isoWeekOfDate dt ≤ 53 ∧
    1 ≤ isoWeekdayOfDate dt ∧ isoWeekdayOfDate dt ≤ 7 := by
  obtain ⟨hy, hm1, hm2, hd1, hd2⟩ := h
  have hos := ymd2ord_bounds dt ⟨hy, hm1, hm2, hd1, hd2⟩
  have hA1 := ymd2ord_jan1_succ dt.year hy
  have hdy := daysInYear_eq dt.year
  have hw1 := isoweek1monday_facts dt.year
  have hw2 := isoweek1monday_facts (dt.year + 1)
  have hw0 := isoweek1monday_facts (dt.year - 1)
  have hPrev : (2 ≤ dt.year ∧
      ymd2ord ⟨dt.year - 1, 1, 1⟩ + daysInYear (dt.year - 1) =
        ymd2ord ⟨dt.year, 1, 1⟩ ∧
      (daysInYear (dt.year - 1) = 365 ∨ daysInYear (dt.year - 1) = 366)) ∨
      (dt.year = 1 ∧ ymd2ord ⟨dt.year, 1, 1⟩ = 1 ∧
        isoweek1monday dt.year = 1 ∧ isoweek1monday (dt.year - 1) = 1) := by
    rcases Nat.lt_or_ge dt.year 2 with h2 | h2
    · right
      have h1 : dt.year = 1 := by omega
      rw [h1]
      exact ⟨rfl, by decide, by decide, by decide⟩
    · left
      have hstep := ymd2ord_jan1_succ (dt.year - 1) (by omega)
      have hrw : dt.year - 1 + 1 = dt.year := by omega
      rw [hrw] at hstep
      exact ⟨h2, hstep.symm, daysInYear_eq _⟩
  simp only [isocalendar, isoWeekOfDate, isoYearOfDate, mondayOnOrBefore,
    isoWeekdayOfDate]
  split_ifs <;> dsimp only <;> omega

theorem update_game_entries (parse : String → Option Date)
    (clock : Nat → String) (now : Int) (g : GameRecord) (p : ProposedFields) :
    (update_game parse clock now g p).entries =
      auditEntriesFrom clock 0
        (userChanges g p ++
          derivedChanges g (calculate_week_and_daycode (parse p.gameDate))) := by
  simp only [update_game]

theorem sublist_ite_cons {α : Type} (c : Prop) [Decidable c] (x : α)
    {l r : List α} (h : List.Sublist l r) :
    List.Sublist ((if c then [x] else []) ++ l) (x :: r) := by
  by_cases hc : c
  · simp only [if_pos hc, List.singleton_append]
    exact List.Sublist.cons₂ x h
  · simp only [if_neg hc, List.nil_append]
    exact List.Sublist.cons x h

theorem sublist_ite_singleton {α : Type} (c : Prop) [Decidable c] (x : α) :
    List.Sublist (if c then [x] else []) [x] := by
  by_cases hc : c
  · simp [if_pos hc]
  · simp [if_neg hc]

theorem userChanges_field_order (g : GameRecord) (p : ProposedFields) :
    List.Sublist ((userChanges g p).map (·.1))
      ["Game Date", "Field", "Time", "Home Team", "Away Team", "Status",
        "Comment", "Original Date"] := by
  unfold userChanges
  simp only [List.append_assoc, List.map_append,
    apply_ite (List.map fun c : String × String × String => c.1),
    List.map_cons, List.map_nil]
  exact sublist_ite_cons _ _ (sublist_ite_cons _ _ (sublist_ite_cons _ _
    (sublist_ite_cons _ _ (sublist_ite_cons _ _ (sublist_ite_cons _ _
      (sublist_ite_cons _ _ (sublist_ite_singleton _ _)))))))

theorem derivedChanges_field_order (g : GameRecord) (wd : Int × Int) :
    List.Sublist ((derivedChanges g wd).map (·.1))
      ["Week (auto-calculated)", "Daycode (auto-calculated)"] := by
  unfold derivedChanges
  simp only [List.append_assoc, List.map_append,
    apply_ite (List.map fun c : String × String × String => c.1),
    List.map_cons, List.map_nil]
  exact sublist_ite_cons _ _ (sublist_ite_singleton _ _)

theorem sqlUpdateGame_keys (table : List (Nat × GameRecord)) (n : Nat)
    (r : GameRecord) :
    (sqlUpdateGame table n r).map Prod.fst = table.map Prod.fst := by
  induction table with
  | nil => rfl
  | cons kv t ih =>
    simp only [sqlUpdateGame, List.map_cons] at ih ⊢
    by_cases h : kv.1 = n <;> simp [h, ih]

theorem sqlUpdateGame_absent (table : List (Nat × GameRecord)) (n : Nat)
    (r : GameRecord) (h : n ∉ table.map Prod.fst) :
    sqlUpdateGame table n r = table := by
  induction table with
  | nil => rfl
  | cons kv t ih =>
    simp only [List.map_cons, List.mem_cons, not_or] at h
    simp only [sqlUpdateGame, List.map_cons]
    have hk : ¬kv.1 = n := fun he => h.1 he.symm
    simp only [if_neg hk]
    have := ih h.2
    simp only [sqlUpdateGame] at this
    rw [this]

/-! ### Claim theorems -/

/-- Claim C1, counterexample: a submission proposing exactly the current
values of every field (on a record whose stored Week/Daycode agree with its
date) produces no audit entries, yet the UPDATE still rewrites
`last_updated` to the current `int(time.time())`, so `last_updated` changes
with no field having changed — the claimed no-op invariant fails. -/
theorem noop_submission_bumps_last_updated :
    sampleProposed.gameDate = sampleGame.gameDate ∧
    sampleProposed.field = sampleGame.field ∧
    sampleProposed.time = sampleGame.time ∧
    sampleProposed.home = sampleGame.home ∧
    sampleProposed.away = sampleGame.away ∧
    sampleProposed.status = sampleGame.status ∧
    sampleProposed.comment = sampleGame.comment ∧
    sampleProposed.originalDate = sampleGame.originalDate ∧
    (update_game sampleParse sampleClock 100 sampleGame sampleProposed).entries = [] ∧
    (update_game sampleParse sampleClock 100 sampleGame
        sampleProposed).record.lastUpdated ≠ sampleGame.lastUpdated := by
  decide

/-- Claim C1, amended: a submission whose proposed values all equal the
current record's values (with stored Week/Daycode consistent with the stored
date) appends no audit entries and leaves the audit trail unchanged, but the
handler still sets `last_updated` to the submission time unconditionally, so
`last_updated` can change even when no field changed value. -/
theorem noop_submission_no_entries_but_stamps (parse : String → Option Date)
    (clock : Nat → String) (now : Int) (g : GameRecord) (p : ProposedFields)
    (h1 : p.gameDate = g.gameDate) (h2 : p.field = g.field)
    (h3 : p.time = g.time) (h4 : p.home = g.home) (h5 : p.away = g.away)
    (h6 : p.status = g.status) (h7 : p.comment = g.comment)
    (h8 : p.originalDate = g.originalDate)
    (hwd : calculate_week_and_daycode (parse g.gameDate) = (g.week, g.daycode)) :
    (update_game parse clock now g p).entries = [] ∧
    (update_game parse clock now g p).changes = [] ∧
    (update_game parse clock now g p).record.auditTrail = g.auditTrail ∧
    (update_game parse clock now g p).record.lastUpdated = now := by
  have hu : userChanges g p = [] := by
    simp [userChanges, h1, h2, h3, h4, h5, h6, h7, h8]
  have hd : derivedChanges g (calculate_week_and_daycode (parse p.gameDate)) = [] := by
    rw [h1, hwd]; simp [derivedChanges]
  refine ⟨?_, ?_, ?_, rfl⟩ <;>
    simp [update_game, hu, hd, auditEntriesFrom, appendAuditTrail]

/-- Witness for the amended C1 theorem at the concrete sample inputs. -/
theorem noop_submission_no_entries_but_stamps_holds :
    calculate_week_and_daycode (sampleParse sampleGame.gameDate) =
      (sampleGame.week, sampleGame.daycode) ∧
    (update_game sampleParse sampleClock 100 sampleGame sampleProposed).entries = [] ∧
    (update_game sampleParse sampleClock 100 sampleGame sampleProposed).changes = [] ∧
    (update_game sampleParse sampleClock 100 sampleGame
        sampleProposed).record.auditTrail = sampleGame.auditTrail ∧
    (update_game sampleParse sampleClock 100 sampleGame
        sampleProposed).record.lastUpdated = 100 :=
  ⟨by decide,
   noop_submission_no_entries_but_stamps sampleParse sampleClock 100 sampleGame
     sampleProposed (by decide) (by decide) (by decide) (by decide) (by decide)
     (by decide) (by decide) (by decide) (by decide)⟩

/-- Claim C4: after every edit-form update, the stored (Week, Daycode) pair
equals `calculate_week_and_daycode` of the stored Game Date, and when
derivation of the stored date fails both stored values are 0. -/
theorem derived_fields_consistent (parse : String → Option Date)
    (clock : Nat → String) (now : Int) (g : GameRecord) (p : ProposedFields) :
    ((update_game parse clock now g p).record.week,
      (update_game parse clock now g p).record.daycode) =
        calculate_week_and_daycode
          (parse (update_game parse clock now g p).record.gameDate) ∧
    (parse (update_game parse clock now g p).record.gameDate = none →
      (update_game parse clock now g p).record.week = 0 ∧
      (update_game parse clock now g p).record.daycode = 0) := by
  constructor
  · simp [update_game]
  · intro hnone
    have : parse p.gameDate = none := hnone
    simp [update_game, this, calculate_week_and_daycode]

/-- Witness for C4: the derived-field invariant evaluated at concrete inputs,
including a date string the parser cannot resolve (sentinel case). -/
theorem derived_fields_consistent_holds :
    ((update_game sampleParse sampleClock 100 sampleGame
        { sampleProposed with gameDate := "not a date" }).record.week,
      (update_game sampleParse sampleClock 100 sampleGame
        { sampleProposed with gameDate := "not a date" }).record.daycode) =
        calculate_week_and_daycode
          (sampleParse (update_game sampleParse sampleClock 100 sampleGame
            { sampleProposed with gameDate := "not a date" }).record.gameDate) ∧
    (update_game sampleParse sampleClock 100 sampleGame
        { sampleProposed with gameDate := "not a date" }).record.week = 0 ∧
    (update_game sampleParse sampleClock 100 sampleGame
        { sampleProposed with gameDate := "not a date" }).record.daycode = 0 :=
  ⟨(derived_fields_consistent sampleParse sampleClock 100 sampleGame
      { sampleProposed with gameDate := "not a date" }).1,
   (derived_fields_consistent sampleParse sampleClock 100 sampleGame
      { sampleProposed with gameDate := "not a date" }).2 (by decide)⟩

/-- Claim C9: an edit that changes only the Comment field (everything else
proposed equal, stored Week/Daycode consistent with the stored date) reports
exactly the single change triple ("Comment", old, new), appends exactly that
one entry to the audit trail, and leaves the stored Week and Daycode
unchanged. -/
theorem comment_only_edit (parse : String → Option Date)
    (clock : Nat → String) (now : Int) (g : GameRecord) (p : ProposedFields)
    (h1 : p.gameDate = g.gameDate) (h2 : p.field = g.field)
    (h3 : p.time = g.time) (h4 : p.home = g.home) (h5 : p.away = g.away)
    (h6 : p.status = g.status) (h7 : p.comment ≠ g.comment)
    (h8 : p.originalDate = g.originalDate)
    (hwd : calculate_week_and_daycode (parse g.gameDate) = (g.week, g.daycode)) :
    (update_game parse clock now g p).changes =
      [("Comment", g.comment, p.comment)] ∧
    (update_game parse clock now g p).entries =
      [⟨clock 0, "Comment", g.comment, p.comment⟩] ∧
    (update_game parse clock now g p).record.week = g.week ∧
    (update_game parse clock now g p).record.daycode = g.daycode ∧
    (update_game parse clock now g p).record.auditTrail =
      appendAuditTrail g.auditTrail
        [add_audit_entry (clock 0) "Comment" g.comment p.comment] := by
  have hu : userChanges g p = [("Comment", g.comment, p.comment)] := by
    simp [userChanges, h1, h2, h3, h4, h5, h6, h7, h8]
  have hd : derivedChanges g (g.week, g.daycode) = [] := by
    simp [derivedChanges]
  have hwd2 : calculate_week_and_daycode (parse p.gameDate) = (g.week, g.daycode) := by
    rw [h1, hwd]
  refine ⟨?_, ?_, ?_, ?_, ?_⟩ <;>
    simp [update_game, hu, hd, hwd2, auditEntriesFrom, encodeEntry]

/-- Claim C2: for a parseable date, `calculate_week_and_daycode` returns the
ISO-8601 week-of-year (in 1..53) and the ISO weekday number (Monday = 1 …
Sunday = 7), as defined spec-side by `isoWeekOfDate`/`isoWeekdayOfDate`; for
an unparseable date it returns the sentinel pair (0, 0) rather than letting
the parse failure escape (the bare `except` branch). -/
theorem week_and_daycode_matches_iso :
    (∀ dt : Date, ValidDate dt →
      calculate_week_and_daycode (some dt) =
        (isoWeekOfDate dt, isoWeekdayOfDate dt) ∧
      1 ≤ isoWeekOfDate dt ∧ isoWeekOfDate dt ≤ 53 ∧
      1 ≤ isoWeekdayOfDate dt ∧ isoWeekdayOfDate dt ≤ 7) ∧
    calculate_week_and_daycode none = (0, 0) := by
  refine ⟨fun dt h => ?_, rfl⟩
  obtain ⟨h1, h2, h3, h4, h5, h6⟩ := isocalendar_iso dt h
  exact ⟨by simp [calculate_week_and_daycode, h1, h2], h3, h4, h5, h6⟩

/-- Witness for C2: 2025-10-12 is a valid date (a Sunday in ISO week 41), and
the sentinel case evaluated. -/
theorem week_and_daycode_matches_iso_holds :
    ValidDate ⟨2025, 10, 12⟩ ∧
    calculate_week_and_daycode (some ⟨2025, 10, 12⟩) =
      (isoWeekOfDate ⟨2025, 10, 12⟩, isoWeekdayOfDate ⟨2025, 10, 12⟩) ∧
    calculate_week_and_daycode (some ⟨2025, 10, 12⟩) = (41, 7) ∧
    calculate_week_and_daycode none = (0, 0) :=
  ⟨by decide,
   (week_and_daycode_matches_iso.1 ⟨2025, 10, 12⟩ (by decide)).1,
   by decide,
   week_and_daycode_matches_iso.2⟩

/-- Claim C3: the audit log is append-only.  After any number of successful
edit-form updates, the trail after the first k updates is a prefix of the
trail after all of them (no prior entry is altered, truncated, reordered or
removed), and each single update extends the trail by exactly the encoded
form of its newly produced entries. -/
theorem audit_trail_append_only (parse : String → Option Date)
    (g : GameRecord) (us : List UpdateInput) (k : Nat) :
    (∃ t, (runUpdates parse g us).auditTrail =
      (runUpdates parse g (us.take k)).auditTrail ++ t) ∧
    ∀ u : UpdateInput,
      (update_game parse u.clock u.now g u.p).record.auditTrail =
        appendAuditTrail g.auditTrail
          ((update_game parse u.clock u.now g u.p).entries.map encodeEntry) := by
  constructor
  · obtain ⟨t, ht⟩ :=
      runUpdates_trail_extends parse (us.drop k) (runUpdates parse g (us.take k))
    refine ⟨t, ?_⟩
    conv_lhs => rw [← List.take_append_drop k us]
    rw [runUpdates_append, ht]
  · intro u
    exact update_game_trail parse u.clock u.now g u.p

/-- Claim C5: the entries appended by one update consist of the user-edited
fields first, in the fixed source order (Game Date, Field, Time, Home Team,
Away Team, Status, Comment, Original Date), followed by the derived fields
(Week, then Daycode), whose labels carry the distinguishing
"(auto-calculated)" suffix. -/
theorem entries_user_fields_then_derived (parse : String → Option Date)
    (clock : Nat → String) (now : Int) (g : GameRecord) (p : ProposedFields) :
    ∃ userPart derivedPart : List AuditEntry,
      (update_game parse clock now g p).entries = userPart ++ derivedPart ∧
      List.Sublist (userPart.map (·.field))
        ["Game Date", "Field", "Time", "Home Team", "Away Team", "Status",
          "Comment", "Original Date"] ∧
      List.Sublist (derivedPart.map (·.field))
        ["Week (auto-calculated)", "Daycode (auto-calculated)"] := by
  refine ⟨auditEntriesFrom clock 0 (userChanges g p),
    auditEntriesFrom clock (0 + (userChanges g p).length)
      (derivedChanges g (calculate_week_and_daycode (parse p.gameDate))),
    ?_, ?_, ?_⟩
  · rw [update_game_entries, auditEntriesFrom_append]
  · rw [auditEntriesFrom_map_field]
    exact userChanges_field_order g p
  · rw [auditEntriesFrom_map_field]
    exact derivedChanges_field_order g _

/-- Claim C6, counterexample: submitting the edit form for a game number that
matches no row leaves the table unchanged and creates nothing, but the
handler still reports success — the claimed NotFound failure is never
produced. -/
theorem missing_game_reported_as_success :
    (42 ∉ ([(7, sampleGame)] : List (Nat × GameRecord)).map Prod.fst) ∧
    (edit_game_submit sampleParse sampleClock 100 [(7, sampleGame)] 42
      sampleGame sampleProposed).1 = [(7, sampleGame)] ∧
    (edit_game_submit sampleParse sampleClock 100 [(7, sampleGame)] 42
      sampleGame sampleProposed).2 = true := by
  decide

/-- Claim C6, amended: an update whose game number references no existing row
never creates a record and modifies no row (the table is unchanged, and in
general the key set is always preserved), but the handler reports success
rather than a NotFound failure. -/
theorem missing_game_update_is_silent (parse : String → Option Date)
    (clock : Nat → String) (now : Int) (table : List (Nat × GameRecord))
    (gameNum : Nat) (g : GameRecord) (p : ProposedFields)
    (h : gameNum ∉ table.map Prod.fst) :
    (edit_game_submit parse clock now table gameNum g p).1 = table ∧
    (edit_game_submit parse clock now table gameNum g p).2 = true ∧
    ∀ t2 : List (Nat × GameRecord),
      (edit_game_submit parse clock now t2 gameNum g p).1.map Prod.fst =
        t2.map Prod.fst := by
  refine ⟨sqlUpdateGame_absent table gameNum _ h, rfl, ?_⟩
  intro t2
  exact sqlUpdateGame_keys t2 gameNum _

/-- Witness for the amended C6 theorem at concrete inputs. -/
theorem missing_game_update_is_silent_holds :
    (42 ∉ ([(7, sampleGame)] : List (Nat × GameRecord)).map Prod.fst) ∧
    (edit_game_submit sampleParse sampleClock 100 [(7, sampleGame)] 42
      sampleGame sampleProposed).1 = [(7, sampleGame)] ∧
    (edit_game_submit sampleParse sampleClock 100 [(7, sampleGame)] 42
      sampleGame sampleProposed).2 = true :=
  ⟨by decide,
   (missing_game_update_is_silent sampleParse sampleClock 100 [(7, sampleGame)]
      42 sampleGame sampleProposed (by decide)).1,
   (missing_game_update_is_silent sampleParse sampleClock 100 [(7, sampleGame)]
      42 sampleGame sampleProposed (by decide)).2.1⟩

/-- Claim C7: for every stored trail containing any mix of decodable and
undecodable lines, the change-history reader returns exactly the decodable
entries, most-recent-first, and a decode failure on one line does not
prevent decoding the others.  Formally: (i) deleting any single skipped line
(a blank line, or one on which decoding fails) from a trail's line list — at
any position, with arbitrarily many lines around it — leaves the reader's
output unchanged, and (ii) on a trail all of whose non-blank lines decode,
the reader returns exactly those entries in reverse (most-recent-first)
append order.  The reader is a total function, so the per-line `try/except`
never escapes. -/
theorem reader_skips_undecodable (decode : String → Option AuditEntry) :
    (∀ trail trail2 : String, ∀ a b : List String, ∀ lb : String,
      auditLines trail = a ++ lb :: b →
      auditLines trail2 = a ++ b →
      (pythonStrip lb = "" ∨ decode lb = none) →
      history_for decode trail = history_for decode trail2) ∧
    (∀ trail : String, ∀ ls : List String, ∀ es : List AuditEntry,
      auditLines trail = ls →
      List.Forall₂ (fun l e => pythonStrip l ≠ "" ∧ decode l = some e) ls es →
      history_for decode trail = es.reverse) := by
  constructor
  · intro trail trail2 a b lb h1 h2 hskip
    unfold history_for readAuditLines
    rw [h1, h2, List.filterMap_append, List.filterMap_append,
      List.filterMap_cons]
    have hnone : (if pythonStrip lb ≠ "" then decode lb else none) = none := by
      rcases hskip with hs | hs
      · have hcon : ¬pythonStrip lb ≠ "" := fun hcon => hcon hs
        rw [if_neg hcon]
      · by_cases hb : pythonStrip lb ≠ ""
        · rw [if_pos hb, hs]
        · rw [if_neg hb]
    rw [hnone]
  · intro trail ls es h1 h2
    unfold history_for readAuditLines
    rw [h1]
    clear h1
    congr 1
    induction h2 with
    | nil => rfl
    | @cons l e ls2 es2 hpair hrest ih =>
      rw [List.filterMap_cons, if_pos hpair.1, hpair.2]
      dsimp only
      rw [ih]

/-- Witness for C7: on the concrete trail "A\nB\nC" with corrupted middle
line "B", the history equals that of the cleaned trail "A\nC", whose two
lines decode to exactly the two entries, most recent first. -/
theorem reader_skips_undecodable_holds :
    history_for sampleDecode "A\nB\nC" = history_for sampleDecode "A\nC" ∧
    history_for sampleDecode "A\nC" =
      [⟨"t2", "Time", "9:00 AM", "1:00 PM"⟩, ⟨"t1", "Comment", "", "x"⟩] :=
  ⟨(reader_skips_undecodable sampleDecode).1 "A\nB\nC" "A\nC" ["A"] ["C"] "B"
     (by decide) (by decide) (Or.inr (by decide)),
   (reader_skips_undecodable sampleDecode).2 "A\nC" ["A", "C"]
     [⟨"t1", "Comment", "", "x"⟩, ⟨"t2", "Time", "9:00 AM", "1:00 PM"⟩]
     (by decide)
     (List.Forall₂.cons ⟨by decide, by decide⟩
       (List.Forall₂.cons ⟨by decide, by decide⟩ List.Forall₂.nil))⟩

/-- Claim C8, counterexample: `add_audit_entry` performs its own
`datetime.now()` read for every entry, so when the clock ticks between two
reads the two entries of one update carry different timestamps — the claimed
shared timestamp fails. -/
theorem one_update_distinct_timestamps :
    ¬ ∀ e1 ∈ (update_game sampleParse tickingClock 100 sampleGame
        { sampleProposed with comment := "x", time := "1:00 PM" }).entries,
      ∀ e2 ∈ (update_game sampleParse tickingClock 100 sampleGame
        { sampleProposed with comment := "x", time := "1:00 PM" }).entries,
        e1.timestamp = e2.timestamp := by
  decide

/-- Claim C8, amended: every audit entry of one update carries one of the
update's successive clock reads; whenever those reads all return the same
value (the update does not straddle a second boundary), all entries of the
update share that timestamp, so their relative order in the log is given by
append order rather than by timestamp. -/
theorem one_update_shared_timestamp (parse : String → Option Date)
    (clock : Nat → String) (now : Int) (g : GameRecord) (p : ProposedFields)
    (ts : String) (hclock : ∀ i, clock i = ts) :
    ∀ e ∈ (update_game parse clock now g p).entries, e.timestamp = ts := by
  intro e he
  rw [update_game_entries] at he
  exact auditEntriesFrom_timestamp clock ts hclock 0 _ e he

/-- Witness for the amended C8 theorem: with all clock reads in the same
second, a concrete entry of a two-field edit carries that timestamp. -/
theorem one_update_shared_timestamp_holds :
    (⟨"2025-10-07 12:00:00", "Time", "9:00 AM", "1:00 PM"⟩ : AuditEntry) ∈
      (update_game sampleParse sampleClock 100 sampleGame
        { sampleProposed with comment := "x", time := "1:00 PM" }).entries ∧
    (⟨"2025-10-07 12:00:00", "Time", "9:00 AM", "1:00 PM"⟩ :
      AuditEntry).timestamp = "2025-10-07 12:00:00" :=
  ⟨by decide,
   one_update_shared_timestamp sampleParse sampleClock 100 sampleGame
     { sampleProposed with comment := "x", time := "1:00 PM" }
     "2025-10-07 12:00:00" (fun _ => rfl)
     ⟨"2025-10-07 12:00:00", "Time", "9:00 AM", "1:00 PM"⟩ (by decide)⟩

/-- Claim C10: the Full Schedule inline comment editor's UPDATE writes only
the Comment column: row count and keys are preserved, every column other
than Comment is unchanged on every row, non-matching rows keep their comment
too, and in particular no audit entry is appended and `last_updated` is not
modified. -/
theorem comment_grid_touches_only_comment (table : List (Nat × GameRecord))
    (n : Nat) (c : String) :
    (sqlUpdateComment table n c).length = table.length ∧
    ∀ pr ∈ (sqlUpdateComment table n c).zip table,
      pr.1.1 = pr.2.1 ∧
      pr.1.2.gameDate = pr.2.2.gameDate ∧
      pr.1.2.field = pr.2.2.field ∧
      pr.1.2.time = pr.2.2.time ∧
      pr.1.2.home = pr.2.2.home ∧
      pr.1.2.away = pr.2.2.away ∧
      pr.1.2.status = pr.2.2.status ∧
      pr.1.2.originalDate = pr.2.2.originalDate ∧
      pr.1.2.week = pr.2.2.week ∧
      pr.1.2.daycode = pr.2.2.daycode ∧
      pr.1.2.auditTrail = pr.2.2.auditTrail ∧
      pr.1.2.lastUpdated = pr.2.2.lastUpdated ∧
      (pr.2.1 ≠ n → pr.1.2.comment = pr.2.2.comment) ∧
      (pr.2.1 = n → pr.1.2.comment = c) := by
  constructor
  · simp [sqlUpdateComment]
  · induction table with
    | nil => intro pr hpr; cases hpr
    | cons kv t ih =>
      intro pr hpr
      simp only [sqlUpdateComment, List.map_cons, List.zip_cons_cons] at hpr
      rcases List.mem_cons.mp hpr with hpr | hpr
      · by_cases hk : kv.1 = n <;> simp_all
      · exact ih pr hpr

/-- Witness for C10 at a concrete one-row table whose key matches the edited
game number. -/
theorem comment_grid_touches_only_comment_holds :
    (sqlUpdateComment [(7, sampleGame)] 7 "late start").length =
      [(7, sampleGame)].length ∧
    (((7, { sampleGame with comment := "late start" }), (7, sampleGame)) ∈
      (sqlUpdateComment [(7, sampleGame)] 7 "late start").zip
        [(7, sampleGame)]) ∧
    ({ sampleGame with comment := "late start" } : GameRecord).auditTrail =
      sampleGame.auditTrail ∧
    ({ sampleGame with comment := "late start" } : GameRecord).lastUpdated =
      sampleGame.lastUpdated ∧
    ({ sampleGame with comment := "late start" } : GameRecord).comment =
      "late start" := by
  have h := comment_grid_touches_only_comment [(7, sampleGame)] 7 "late start"
  have hmem : ((7, { sampleGame with comment := "late start" }), (7, sampleGame)) ∈
      (sqlUpdateComment [(7, sampleGame)] 7 "late start").zip
        [(7, sampleGame)] := by decide
  have h2 := h.2 _ hmem
  exact ⟨h.1, hmem, h2.2.2.2.2.2.2.2.2.2.2.1, h2.2.2.2.2.2.2.2.2.2.2.2.1,
    h2.2.2.2.2.2.2.2.2.2.2.2.2.2 rfl⟩

/-- Witness for C9 at concrete inputs: a comment-only edit of the sample
game. -/
theorem comment_only_edit_holds :
    (update_game sampleParse sampleClock 100 sampleGame
        { sampleProposed with comment := "rainout make-up" }).changes =
      [("Comment", "", "rainout make-up")] ∧
    (update_game sampleParse sampleClock 100 sampleGame
        { sampleProposed with comment := "rainout make-up" }).entries =
      [⟨sampleClock 0, "Comment", "", "rainout make-up"⟩] ∧
    (update_game sampleParse sampleClock 100 sampleGame
        { sampleProposed with comment := "rainout make-up" }).record.week =
      sampleGame.week ∧
    (update_game sampleParse sampleClock 100 sampleGame
        { sampleProposed with comment := "rainout make-up" }).record.daycode =
      sampleGame.daycode := by
  have h := comment_only_edit sampleParse sampleClock 100 sampleGame
    { sampleProposed with comment := "rainout make-up" } (by decide) (by decide)
    (by decide) (by decide) (by decide) (by decide) (by decide) (by decide)
    (by decide)
  exact ⟨h.1, h.2.1, h.2.2.1, h.2.2.2.1⟩

end WusaReports
